import Mathlib

/-!
Verification of the rate-limiting middleware and the error-normalization
pipeline of the edge-next repository.

The definitions below are a shallow embedding of the TypeScript source:
* `src/lib/api/rate-limit.ts` (checkRateLimit, getRateLimitStatus,
  getClientIdentifier, addRateLimitHeaders, withRateLimit),
* `src/lib/api/middleware.ts` (withRequestLogging, withErrorHandling,
  withMiddleware),
* `src/lib/api/response.ts` (createErrorResponse),
* `src/lib/errors/index.ts` (ErrorType, ERROR_STATUS_MAP, AppError,
  createAppErrorFromNative).

Modelling conventions:
* Epoch milliseconds and JSON number fields are modelled as `Int`
  (the limiter itself only ever writes integer counts and timestamps).
* The key-value cache is a total function `String → StoredValue`; a key
  that is missing (or whose TTL has expired) maps to `StoredValue.absent`.
* `CacheEnv` captures the three fault modes of the store adapter:
  `createCacheClient()` returning null, `cache.get` throwing, and
  `cache.put` throwing.  The try/catch of the source is embedded as
  explicit branches on these flags.
* JavaScript truthiness (`x || d`, `if (x)`) is translated explicitly:
  `0`, `""`, `null`/`undefined` are falsy.
* Asynchrony is sequentialized: every call takes a single `now` value.
  Logging and analytics emission are fire-and-forget and not modelled.
-/

set_option maxRecDepth 100000
set_option autoImplicit false

namespace EdgeNext

/-! String primitives are implemented by structural recursion over the
character list of the string, mirroring the JavaScript string methods
the source uses (`split`, `trim`, `substring`, `toLowerCase`,
`includes`, `startsWith`).  JavaScript indexes UTF-16 code units; the
model indexes characters, which agrees on all inputs without surrogate
pairs. -/

/-- Does `pat` occur at the start of `s`? -/
def startsWithList : List Char → List Char → Bool
  | _, [] => true
  | [], _ :: _ => false
  | c :: cs, p :: ps => c == p && startsWithList cs ps

/-- JS `s.startsWith(pat)`. -/
def startsWithStr (s pat : String) : Bool :=
  startsWithList s.data pat.data

/-- Does `pat` occur contiguously anywhere in the list? -/
def containsList (pat : List Char) : List Char → Bool
  | [] => startsWithList [] pat
  | c :: cs => startsWithList (c :: cs) pat || containsList pat cs

/-- JS `s.includes(pat)`. -/
def strContains (s pat : String) : Bool :=
  containsList pat.data s.data

/-- JS `s.split(',')[0]`: the segment before the first comma. -/
def takeUntilComma : List Char → List Char
  | [] => []
  | c :: cs => if c == ',' then [] else c :: takeUntilComma cs

/-- JS `s.trim()`. -/
def trimStr (s : String) : String :=
  ⟨((s.data.dropWhile Char.isWhitespace).reverse.dropWhile Char.isWhitespace).reverse⟩

/-- JS `s.toLowerCase()` (ASCII case folding, which covers every pattern
the classifier matches against). -/
def toLowerStr (s : String) : String :=
  ⟨s.data.map Char.toLower⟩

/-- JS `s.substring(0, n)`. -/
def substrTo (s : String) (n : Nat) : String :=
  ⟨s.data.take n⟩

/-- JavaScript `x || d` for a numeric field read from parsed JSON:
`none` models a missing/undefined field; a stored `0` is falsy and
also yields the default. -/
def jsNumOr (x : Option Int) (d : Int) : Int :=
  match x with
  | none => d
  | some v => if v = 0 then d else v

/-- JavaScript truthiness of a nullable string (`null`/`undefined` and
`""` are falsy). -/
def jsTruthy : Option String → Bool
  | none => false
  | some s => !(s == "")

/-- JS `Math.ceil(a / b)` for integer `a` and positive integer `b`
(the source divides epoch-millisecond differences by 1000). -/
def ceilDivInt (a b : Int) : Int :=
  -((-a).ediv b)

/-- The value the cache holds under one key, as seen by
`JSON.parse` in the limiter: missing key, a string that fails to parse,
or a parsed object with optional numeric `count` / `firstRequestTime`
fields (`none` models a missing field). -/
inductive StoredValue where
  | absent
  | unparsable
  | record (count : Option Int) (firstRequestTime : Option Int)
deriving DecidableEq

/-- Fault state of the counter store for one limiter call:
`available = false` models `createCacheClient()` returning null;
`getFails` / `putFails` model `cache.get` / `cache.put` throwing. -/
structure CacheEnv where
  available : Bool
  getFails : Bool
  putFails : Bool
deriving DecidableEq

/-- The shared key-value counter store. -/
abbrev Store := String → StoredValue

/-- Model of `cache.put key v` (the TTL argument of the source only influences
when the platform turns the entry back into `absent`, which the model
expresses by quantifying over store states). -/
def storePut (store : Store) (key : String) (v : StoredValue) : Store :=
  fun k => if k = key then v else store k

/-- The store with no entries. -/
def emptyStore : Store := fun _ => .absent

/-- A store environment in which the cache is present and both
operations succeed. -/
def envOk : CacheEnv := ⟨true, false, false⟩

/-- RateLimitConfig from `src/types/rate-limit.ts`.  The field
`keyPfx` embeds the source's key-prefix field. -/
structure RateLimitConfig where
  maxRequests : Int
  windowSeconds : Int
  keyPfx : String
  skipPaths : List String
deriving DecidableEq

/-- RateLimitStatus from `src/types/rate-limit.ts`. -/
structure RateLimitStatus where
  allowed : Bool
  remaining : Int
  resetAt : Int
  limit : Int
deriving DecidableEq

/-- The counter key `` `${config.keyPrefix}:${clientId}` ``. -/
def rateLimitKey (config : RateLimitConfig) (clientId : String) : String :=
  config.keyPfx ++ ":" ++ clientId

/-- Reading the current counter record in `checkRateLimit`:
absent or unparsable data yields the fresh record `(0, now)`; otherwise
`count = parsed.count || 0` and
`firstRequestTime = parsed.firstRequestTime || now`. -/
def parseCounterRecord (currentData : StoredValue) (now : Int) : Int × Int :=
  match currentData with
  | .absent => (0, now)
  | .unparsable => (0, now)
  | .record c f => (jsNumOr c 0, jsNumOr f now)

/-- Model of `checkRateLimit(clientId, config)` of `rate-limit.ts`, with the
call time `now` and the store state made explicit.  Returns the status
together with the store state after the call.  The catch-all of the
source becomes the `getFails`/`putFails` branches, both of which return
the fail-open status built from the `resetAt` computed at the top. -/
def checkRateLimit (env : CacheEnv) (store : Store) (clientId : String)
    (config : RateLimitConfig) (now : Int) : RateLimitStatus × Store :=
  if env.available = false then
    (⟨true, config.maxRequests, now + config.windowSeconds * 1000, config.maxRequests⟩, store)
  else
    let key := rateLimitKey config clientId
    let windowMs := config.windowSeconds * 1000
    let resetAt := now + windowMs
    if env.getFails then
      (⟨true, config.maxRequests, resetAt, config.maxRequests⟩, store)
    else
      let cf0 := parseCounterRecord (store key) now
      let cf := if now - cf0.2 > windowMs then ((0 : Int), now) else cf0
      if cf.1 ≥ config.maxRequests then
        (⟨false, 0, cf.2 + windowMs, config.maxRequests⟩, store)
      else
        let count := cf.1 + 1
        if env.putFails then
          (⟨true, config.maxRequests, resetAt, config.maxRequests⟩, store)
        else
          (⟨true, config.maxRequests - count, cf.2 + windowMs, config.maxRequests⟩,
            storePut store key (.record (some count) (some cf.2)))

/-- Request model: `getClientIdentifier(request)` needs the request headers; the model
keeps the four headers the function reads plus the URL pathname. -/
structure NextRequest where
  pathname : String
  cfConnectingIp : Option String
  xForwardedFor : Option String
  xRealIp : Option String
  userAgent : Option String
deriving DecidableEq

/-- Model of `getClientIdentifier(request)` of `rate-limit.ts`. -/
def getClientIdentifier (request : NextRequest) : String :=
  if jsTruthy request.cfConnectingIp then request.cfConnectingIp.getD ""
  else if jsTruthy request.xForwardedFor then
    trimStr ⟨takeUntilComma (request.xForwardedFor.getD "").data⟩
  else if jsTruthy request.xRealIp then request.xRealIp.getD ""
  else
    let ua := match request.userAgent with
      | some s => if s == "" then "unknown" else s
      | none => "unknown"
    "ua-" ++ substrTo ua 50

/-- Model of `getRateLimitStatus(request, customConfig)` of `rate-limit.ts`
(`config` stands for the already-merged configuration).  The source
only ever calls `cache.get`, which the model records by returning the
store component unchanged in every branch; `JSON.parse` failure is
caught by the function's own catch-all. -/
def getRateLimitStatus (env : CacheEnv) (store : Store) (request : NextRequest)
    (config : RateLimitConfig) (now : Int) : RateLimitStatus × Store :=
  if env.available = false then
    (⟨true, config.maxRequests, now + config.windowSeconds * 1000, config.maxRequests⟩, store)
  else
    let clientId := getClientIdentifier request
    let key := rateLimitKey config clientId
    let windowMs := config.windowSeconds * 1000
    if env.getFails then
      (⟨true, config.maxRequests, now + windowMs, config.maxRequests⟩, store)
    else
      match store key with
      | .absent => (⟨true, config.maxRequests, now + windowMs, config.maxRequests⟩, store)
      | .unparsable => (⟨true, config.maxRequests, now + windowMs, config.maxRequests⟩, store)
      | .record c f =>
        let count := jsNumOr c 0
        let firstRequestTime := jsNumOr f now
        if now - firstRequestTime > windowMs then
          (⟨true, config.maxRequests, now + windowMs, config.maxRequests⟩, store)
        else
          (⟨decide (count < config.maxRequests), max 0 (config.maxRequests - count),
            firstRequestTime + windowMs, config.maxRequests⟩, store)

/-! ### Error taxonomy (`src/lib/errors/index.ts`) -/

/-- The `ErrorType` enum. -/
inductive ErrorType where
  | DATABASE_ERROR
  | DATABASE_CONNECTION_ERROR
  | DATABASE_QUERY_ERROR
  | DATABASE_CONSTRAINT_ERROR
  | FILE_ERROR
  | FILE_NOT_FOUND
  | FILE_UPLOAD_ERROR
  | FILE_DOWNLOAD_ERROR
  | FILE_SIZE_EXCEEDED
  | CONVERSION_ERROR
  | JSON_PARSE_ERROR
  | TYPE_CONVERSION_ERROR
  | VALIDATION_ERROR
  | INVALID_INPUT
  | MISSING_REQUIRED_FIELD
  | AUTHENTICATION_ERROR
  | AUTHORIZATION_ERROR
  | TOKEN_EXPIRED
  | INVALID_CREDENTIALS
  | RESOURCE_NOT_FOUND
  | RESOURCE_ALREADY_EXISTS
  | BUSINESS_LOGIC_ERROR
  | EXTERNAL_SERVICE_ERROR
  | API_ERROR
  | NETWORK_ERROR
  | RATE_LIMIT_ERROR
  | INTERNAL_SERVER_ERROR
  | UNKNOWN_ERROR
deriving DecidableEq

/-- The `ERROR_STATUS_MAP` table. -/
def errorStatusMap : ErrorType → Int
  | .DATABASE_ERROR => 500
  | .DATABASE_CONNECTION_ERROR => 503
  | .DATABASE_QUERY_ERROR => 500
  | .DATABASE_CONSTRAINT_ERROR => 409
  | .FILE_ERROR => 500
  | .FILE_NOT_FOUND => 404
  | .FILE_UPLOAD_ERROR => 500
  | .FILE_DOWNLOAD_ERROR => 500
  | .FILE_SIZE_EXCEEDED => 413
  | .CONVERSION_ERROR => 400
  | .JSON_PARSE_ERROR => 400
  | .TYPE_CONVERSION_ERROR => 400
  | .VALIDATION_ERROR => 400
  | .INVALID_INPUT => 400
  | .MISSING_REQUIRED_FIELD => 400
  | .AUTHENTICATION_ERROR => 401
  | .AUTHORIZATION_ERROR => 403
  | .TOKEN_EXPIRED => 401
  | .INVALID_CREDENTIALS => 401
  | .RESOURCE_NOT_FOUND => 404
  | .RESOURCE_ALREADY_EXISTS => 409
  | .BUSINESS_LOGIC_ERROR => 400
  | .EXTERNAL_SERVICE_ERROR => 502
  | .API_ERROR => 502
  | .NETWORK_ERROR => 503
  | .RATE_LIMIT_ERROR => 429
  | .INTERNAL_SERVER_ERROR => 500
  | .UNKNOWN_ERROR => 500

/-- The opaque payloads an `AppError.details` field can hold in the code
paths under verification: the wrapped raw error (createAppErrorFromNative
passes the original error object as `details`), a wrapped non-Error
thrown value, the rate-limit details object of the 429 body, or an
arbitrary caller-supplied payload. -/
inductive ErrDetail where
  | nativeValue (name message : String) (stack : Option String)
  | otherValue (tag : Nat)
  | rateLimitInfo (limit resetAt retryAfter : Int)
  | miscPayload (tag : Nat)
deriving DecidableEq

/-- The `AppError` class: `{ message, type, statusCode, isOperational,
details }` plus the inherited `stack`.  The freshly captured stack trace
of a wrapper constructed by `createAppErrorFromNative` is environment
dependent and is modelled as `none`; no claim depends on its value. -/
structure AppError where
  message : String
  errType : ErrorType
  statusCode : Int
  isOperational : Bool
  details : Option ErrDetail
  stack : Option String
deriving DecidableEq

/-- The `AppError` constructor: `statusCode || ERROR_STATUS_MAP[type]`
(a passed `0` is falsy and falls back to the map). -/
def mkAppError (message : String) (t : ErrorType) (statusCode : Option Int)
    (isOperational : Bool) (details : Option ErrDetail) : AppError :=
  ⟨message, t, jsNumOr statusCode (errorStatusMap t), isOperational, details, none⟩

/-- Constructor `new DatabaseError(message, details)`. -/
def mkDatabaseError (message : String) (details : Option ErrDetail) : AppError :=
  mkAppError message .DATABASE_ERROR (some 500) true details

/-- Constructor `new NetworkError(message, details)`. -/
def mkNetworkError (message : String) (details : Option ErrDetail) : AppError :=
  mkAppError message .NETWORK_ERROR (some 503) true details

/-- Constructor `new JSONParseError(message, details)` (via `ConversionError`,
which passes `ERROR_STATUS_MAP[JSON_PARSE_ERROR] = 400`). -/
def mkJSONParseError (message : String) (details : Option ErrDetail) : AppError :=
  mkAppError message .JSON_PARSE_ERROR (some (errorStatusMap .JSON_PARSE_ERROR)) true details

/-- Constructor `new FileError(message, type, details)`
(passes `ERROR_STATUS_MAP[type]`). -/
def mkFileError (message : String) (t : ErrorType) (details : Option ErrDetail) : AppError :=
  mkAppError message t (some (errorStatusMap t)) true details

/-- Constructor `new InternalServerError(message, details)`. -/
def mkInternalServerError (message : String) (details : Option ErrDetail) : AppError :=
  mkAppError message .INTERNAL_SERVER_ERROR (some 500) true details

/-- A JavaScript value that can be thrown: an already-typed `AppError`,
a native `Error` (classified by `name`, `message`, `stack`), or any
other value. -/
inductive JsValue where
  | appErr (e : AppError)
  | nativeError (name message : String) (stack : Option String)
  | otherValue (tag : Nat)
deriving DecidableEq

/-- Model of `createAppErrorFromNative(error)` of `src/lib/errors/index.ts`:
an `AppError` passes through unchanged; a native `Error` is classified
by substring heuristics on its lower-cased message, wrapping the
original error as `details`; any other thrown value becomes an
`InternalServerError`. -/
def createAppErrorFromNative (error : JsValue) : AppError :=
  match error with
  | .appErr e => e
  | .nativeError name msg stack =>
    let message := toLowerStr msg
    if strContains message "database" || strContains message "sql" then
      mkDatabaseError msg (some (.nativeValue name msg stack))
    else if strContains message "network" || strContains message "fetch" then
      mkNetworkError msg (some (.nativeValue name msg stack))
    else if strContains message "json" || strContains message "parse" then
      mkJSONParseError msg (some (.nativeValue name msg stack))
    else if strContains message "file" || strContains message "upload" then
      mkFileError msg ErrorType.FILE_ERROR (some (.nativeValue name msg stack))
    else
      mkInternalServerError msg (some (.nativeValue name msg stack))
  | .otherValue tag => mkInternalServerError "An unexpected error occurred" (some (.otherValue tag))

/-! ### Response envelope (`src/lib/api/response.ts`) -/

/-- The `error` member of `ApiErrorResponse` together with the
`success: false` discriminant. -/
structure ApiErrorBody where
  success : Bool
  errorType : ErrorType
  message : String
  details : Option ErrDetail
  stack : Option String
deriving DecidableEq

/-- Model of `createErrorResponse(error)` of `response.ts`; `isProd` models
`process.env.NODE_ENV === 'production'`.  In non-production the truthy
`details`/`stack` of the normalized error are copied into the body. -/
def createErrorResponse (isProd : Bool) (error : JsValue) : ApiErrorBody :=
  let appError := match error with
    | .appErr e => e
    | _ => createAppErrorFromNative error
  let base : ApiErrorBody := ⟨false, appError.errType, appError.message, none, none⟩
  if isProd then base
  else
    { base with
      details := appError.details,
      stack := match appError.stack with
        | some s => if s == "" then none else some s
        | none => none }

/-! ### Responses and the rate-limit wrapper -/

/-- A response body: either an opaque business payload or the JSON
error envelope. -/
inductive Body where
  | payload (tag : Nat)
  | error (e : ApiErrorBody)
deriving DecidableEq

/-- The observable part of a `NextResponse`.  `NextResponse.json`
bookkeeping headers (content-type) are not modelled. -/
structure NextResponse where
  status : Int
  body : Body
  headers : List (String × String)
deriving DecidableEq

/-- Model of `response.headers.set(name, value)`: replace the existing header
in place, or append.  (Header-name case folding is not modelled; the
source uses each name with a single spelling.) -/
def headersSet (hs : List (String × String)) (name value : String) :
    List (String × String) :=
  if hs.any (fun p => p.1 == name) then
    hs.map (fun p => if p.1 == name then (name, value) else p)
  else hs ++ [(name, value)]

/-- Model of `headers.get(name)`. -/
def headerGet (hs : List (String × String)) (name : String) : Option String :=
  (hs.find? (fun p => p.1 == name)).map (fun p => p.2)

/-- Model of `addRateLimitHeaders(response, status)` of `rate-limit.ts`. -/
def addRateLimitHeaders (response : NextResponse) (status : RateLimitStatus) :
    NextResponse :=
  let h1 := headersSet response.headers "X-RateLimit-Limit" (toString status.limit)
  let h2 := headersSet h1 "X-RateLimit-Remaining" (toString status.remaining)
  let h3 := headersSet h2 "X-RateLimit-Reset" (toString (status.resetAt.ediv 1000))
  { response with headers := h3 }

/-- The message of the 429 body built in `withRateLimit`. -/
def rateLimitMessage : String := "Too many requests, please try again later"

/-- The 429 response built in `withRateLimit` when the status is not
allowed: body `{success:false, error:{type:'RATE_LIMIT_ERROR', message,
details:{limit, resetAt, retryAfter}}}`, then `Retry-After` is set,
then the rate-limit headers are added.  Note the `details` member is
built unconditionally: this code path never consults `NODE_ENV`. -/
def rateLimitRejectionResponse (status : RateLimitStatus) (now : Int) : NextResponse :=
  let retryAfter := ceilDivInt (status.resetAt - now) 1000
  let body : ApiErrorBody :=
    ⟨false, ErrorType.RATE_LIMIT_ERROR, rateLimitMessage,
      some (.rateLimitInfo status.limit status.resetAt retryAfter), none⟩
  let response : NextResponse := ⟨429, Body.error body, []⟩
  addRateLimitHeaders
    { response with headers := headersSet response.headers "Retry-After" (toString retryAfter) }
    status

/-- Model of `withRateLimit(request, handler, customConfig)` of `rate-limit.ts`.
`enabled` models `isRateLimitEnabled()`, `config` the merged
`{...getRateLimitConfig(), ...customConfig}`, and `handlerResp` the
response produced by the wrapped handler (whose own effects are outside
the limiter).  `analytics.trackRateLimitExceeded` is fire-and-forget
and not modelled. -/
def withRateLimit (enabled : Bool) (env : CacheEnv) (store : Store)
    (request : NextRequest) (handlerResp : NextResponse)
    (config : RateLimitConfig) (now : Int) : NextResponse × Store :=
  if enabled = false then (handlerResp, store)
  else if config.skipPaths.any (fun path => startsWithStr request.pathname path) then
    (handlerResp, store)
  else
    let clientId := getClientIdentifier request
    let r := checkRateLimit env store clientId config now
    if r.1.allowed = false then
      (rateLimitRejectionResponse r.1 now, r.2)
    else
      (addRateLimitHeaders handlerResp r.1, r.2)

/-! ### Middleware pipeline (`src/lib/api/middleware.ts`) -/

/-- A route handler: either returns a response or throws a value. -/
abbrev Handler := Unit → Except JsValue NextResponse

/-- Model of `withErrorHandling(handler)`: `try { return await handler() }
catch (error) { throw error }` — the catch re-throws the error
unchanged. -/
def withErrorHandling (handler : Handler) : Except JsValue NextResponse :=
  match handler () with
  | Except.ok response => Except.ok response
  | Except.error e => Except.error e

/-- Model of `withRequestLogging(request, handler)`: attaches the tracing
headers on success and re-throws on failure (logging and analytics are
observation-only and not modelled). -/
def withRequestLogging (requestId traceId spanId : String) (durationMs : Int)
    (handler : Handler) : Except JsValue NextResponse :=
  match handler () with
  | Except.ok response =>
    let h1 := headersSet response.headers "X-Request-ID" requestId
    let h2 := headersSet h1 "X-Trace-ID" traceId
    let h3 := headersSet h2 "X-Span-ID" spanId
    let h4 := headersSet h3 "X-Response-Time" (toString durationMs ++ "ms")
    Except.ok { response with headers := h4 }
  | Except.error e => Except.error e

/-- Composition `withMiddleware(request, handler) =
withRequestLogging(request, () => withErrorHandling(handler))`. -/
def withMiddleware (requestId traceId spanId : String) (durationMs : Int)
    (handler : Handler) : Except JsValue NextResponse :=
  withRequestLogging requestId traceId spanId durationMs
    (fun _ => withErrorHandling handler)

/-! ### Call sequences -/

/-- Iterated `checkRateLimit` calls for one client, threading the store:
one call per element of the time list. -/
def checkSeq (env : CacheEnv) (clientId : String) (config : RateLimitConfig) :
    List Int → Store → List RateLimitStatus × Store
  | [], store => ([], store)
  | t :: ts, store =>
    let r := checkRateLimit env store clientId config t
    let rest := checkSeq env clientId config ts r.2
    (r.1 :: rest.1, rest.2)

/-- Iterated `getRateLimitStatus` calls, keeping only the store. -/
def peekIter (env : CacheEnv) (request : NextRequest) (config : RateLimitConfig)
    (now : Int) : Nat → Store → Store
  | 0, store => store
  | n + 1, store =>
    peekIter env request config now n (getRateLimitStatus env store request config now).2

/-- Iterated `withRateLimit` calls for one request, threading the
store: one call per element of the time list. -/
def withRateLimitSeq (enabled : Bool) (env : CacheEnv) (request : NextRequest)
    (handlerResp : NextResponse) (config : RateLimitConfig) :
    List Int → Store → List NextResponse × Store
  | [], store => ([], store)
  | t :: ts, store =>
    let r := withRateLimit enabled env store request handlerResp config t
    let rest := withRateLimitSeq enabled env request handlerResp config ts r.2
    (r.1 :: rest.1, rest.2)

/-! ### Exact JSON numbers: the limiter over rational store contents

`StoredValue` models the numeric fields of a parsed counter record at
integer granularity, which covers everything the limiter itself ever
writes.  `JSON.parse`, however, can hand back any JS number from a
corrupted record.  The following definitions refine the store model
with exact rational number fields (IEEE doubles of the magnitudes
involved are dyadic rationals, and the operations the limiter performs
on them — comparison, adding 1, subtraction — are exact on them), and
`checkRateLimitQ` / `getRateLimitStatusQ` are the same line-by-line
translation of `checkRateLimit` / `getRateLimitStatus` from
`rate-limit.ts` over this refined store. -/

/-- The value the cache holds under one key, with the two numeric
fields of the parsed record as exact rationals. -/
inductive StoredValueQ where
  | absent
  | unparsable
  | record (count : Option Rat) (firstRequestTime : Option Rat)
deriving DecidableEq

/-- The shared key-value counter store over `StoredValueQ`. -/
abbrev StoreQ := String → StoredValueQ

/-- Model of `cache.put key v` over `StoreQ`. -/
def storePutQ (store : StoreQ) (key : String) (v : StoredValueQ) : StoreQ :=
  fun k => if k = key then v else store k

/-- JS `x || d` for a rational-number field read from parsed JSON. -/
def jsNumOrQ (x : Option Rat) (d : Rat) : Rat :=
  match x with
  | none => d
  | some v => if v = 0 then d else v

/-- Reading the current counter record in `checkRateLimit`, over
rational fields. -/
def parseCounterRecordQ (currentData : StoredValueQ) (now : Rat) : Rat × Rat :=
  match currentData with
  | .absent => (0, now)
  | .unparsable => (0, now)
  | .record c f => (jsNumOrQ c 0, jsNumOrQ f now)

/-- RateLimitStatus whose numeric fields are exact JS numbers. -/
structure RateLimitStatusQ where
  allowed : Bool
  remaining : Rat
  resetAt : Rat
  limit : Rat
deriving DecidableEq

/-- Model of `checkRateLimit(clientId, config)` over the
rational-number store: identical branch-for-branch to
`checkRateLimit`, with `Date.now()` still an integer instant. -/
def checkRateLimitQ (env : CacheEnv) (store : StoreQ) (clientId : String)
    (config : RateLimitConfig) (now : Int) : RateLimitStatusQ × StoreQ :=
  let maxQ : Rat := (config.maxRequests : Rat)
  let nowQ : Rat := (now : Rat)
  if env.available = false then
    (⟨true, maxQ, nowQ + (config.windowSeconds : Rat) * 1000, maxQ⟩, store)
  else
    let key := rateLimitKey config clientId
    let windowMs : Rat := (config.windowSeconds : Rat) * 1000
    let resetAt := nowQ + windowMs
    if env.getFails then
      (⟨true, maxQ, resetAt, maxQ⟩, store)
    else
      let cf0 := parseCounterRecordQ (store key) nowQ
      let cf := if nowQ - cf0.2 > windowMs then ((0 : Rat), nowQ) else cf0
      if cf.1 ≥ maxQ then
        (⟨false, 0, cf.2 + windowMs, maxQ⟩, store)
      else
        let count := cf.1 + 1
        if env.putFails then
          (⟨true, maxQ, resetAt, maxQ⟩, store)
        else
          (⟨true, maxQ - count, cf.2 + windowMs, maxQ⟩,
            storePutQ store key (.record (some count) (some cf.2)))

/-- Model of `getRateLimitStatus(request, customConfig)` over the
rational-number store; its `remaining` is clamped with
`Math.max(0, ...)` exactly as in the source. -/
def getRateLimitStatusQ (env : CacheEnv) (store : StoreQ) (request : NextRequest)
    (config : RateLimitConfig) (now : Int) : RateLimitStatusQ × StoreQ :=
  let maxQ : Rat := (config.maxRequests : Rat)
  let nowQ : Rat := (now : Rat)
  if env.available = false then
    (⟨true, maxQ, nowQ + (config.windowSeconds : Rat) * 1000, maxQ⟩, store)
  else
    let clientId := getClientIdentifier request
    let key := rateLimitKey config clientId
    let windowMs : Rat := (config.windowSeconds : Rat) * 1000
    if env.getFails then
      (⟨true, maxQ, nowQ + windowMs, maxQ⟩, store)
    else
      match store key with
      | .absent => (⟨true, maxQ, nowQ + windowMs, maxQ⟩, store)
      | .unparsable => (⟨true, maxQ, nowQ + windowMs, maxQ⟩, store)
      | .record c f =>
        let count := jsNumOrQ c 0
        let firstRequestTime := jsNumOrQ f nowQ
        if nowQ - firstRequestTime > windowMs then
          (⟨true, maxQ, nowQ + windowMs, maxQ⟩, store)
        else
          (⟨decide (count < maxQ), max 0 (maxQ - count),
            firstRequestTime + windowMs, maxQ⟩, store)

/-- Does the stored count field (when present) hold an integer?  True
for absent and unparsable data, for records without a count field, and
for every record the limiter itself writes. -/
def hasIntCount : StoredValueQ → Bool
  | .record (some c) _ => c.den == 1
  | _ => true

/-! ### Concrete fixtures used by witnesses and counterexamples -/

/-- A policy of 3 requests per 60-second window. -/
def cfg3 : RateLimitConfig := ⟨3, 60, "rate-limit", []⟩

/-- A policy of 1 request per 60-second window. -/
def cfg1 : RateLimitConfig := ⟨1, 60, "rate-limit", []⟩

/-- A store holding the record `(count 1, firstRequestTime 1000)` for
client `1.2.3.4` under the default key prefix. -/
def store11 : Store :=
  storePut emptyStore "rate-limit:1.2.3.4" (.record (some 1) (some 1000))

/-- A store holding the record `(count 5, firstRequestTime 1000)` for
client `1.2.3.4` (a count above every policy used here). -/
def store51 : Store :=
  storePut emptyStore "rate-limit:1.2.3.4" (.record (some 5) (some 1000))

/-- A rational-number store holding the corrupted record
`{"count": 2.5, "firstRequestTime": 1000}` for client `1.2.3.4`. -/
def storeHalf : StoreQ :=
  storePutQ (fun _ => .absent) (rateLimitKey cfg3 "1.2.3.4")
    (.record (some (5/2)) (some 1000))

/-- A rational-number store holding the integer record `(5, 1000)` for
client `1.2.3.4`. -/
def storeQ51 : StoreQ :=
  storePutQ (fun _ => .absent) (rateLimitKey cfg3 "1.2.3.4")
    (.record (some 5) (some 1000))

/-- A request carrying only the Cloudflare client-IP header. -/
def reqIp : NextRequest := ⟨"/api/x", some "1.2.3.4", none, none, none⟩

/-- A request with no IP headers and an empty User-Agent header. -/
def reqEmptyUa : NextRequest := ⟨"/", none, none, none, some ""⟩

/-- A successful business response with no headers of its own. -/
def respOk : NextResponse := ⟨200, Body.payload 0, []⟩

/-- A handler that throws a plain native error. -/
def boomHandler : Handler := fun _ => Except.error (JsValue.nativeError "Error" "boom" none)

/-! ### Step lemmas for the limiter -/

lemma jsNumOr_some_zero (v : Int) : jsNumOr (some v) 0 = v := by
  simp only [jsNumOr]
  split_ifs with h
  · omega
  · rfl

lemma jsNumOr_some_ne (v d : Int) (h : v ≠ 0) : jsNumOr (some v) d = v := by
  simp [jsNumOr, h]

/-- One `checkRateLimit` call on a healthy store with no entry for the
client: the call is admitted with `remaining = maxRequests - 1` and the
record `(1, now)` is written. -/
lemma checkRateLimit_absent (store : Store) (clientId : String)
    (config : RateLimitConfig) (now : Int)
    (hmax : 0 < config.maxRequests) (hwin : 0 ≤ config.windowSeconds)
    (habs : store (rateLimitKey config clientId) = .absent) :
    checkRateLimit envOk store clientId config now =
      (⟨true, config.maxRequests - 1, now + config.windowSeconds * 1000, config.maxRequests⟩,
        storePut store (rateLimitKey config clientId) (.record (some 1) (some now))) := by
  have h1 : ¬ (now - now > config.windowSeconds * 1000) := by omega
  have h2 : ¬ ((0 : Int) ≥ config.maxRequests) := by omega
  simp [checkRateLimit, envOk, habs, parseCounterRecord, h1, h2]

/-- One `checkRateLimit` call on a healthy store holding the record
`(k, t0)` for the client, within the logical window: over the limit the
call is rejected and nothing is written; under the limit the count is
incremented and persisted. -/
lemma checkRateLimit_record (store : Store) (clientId : String)
    (config : RateLimitConfig) (k t0 now : Int) (ht0 : t0 ≠ 0)
    (hwin : now - t0 ≤ config.windowSeconds * 1000)
    (hrec : store (rateLimitKey config clientId) = .record (some k) (some t0)) :
    checkRateLimit envOk store clientId config now =
      if k ≥ config.maxRequests then
        (⟨false, 0, t0 + config.windowSeconds * 1000, config.maxRequests⟩, store)
      else
        (⟨true, config.maxRequests - (k + 1), t0 + config.windowSeconds * 1000,
            config.maxRequests⟩,
          storePut store (rateLimitKey config clientId) (.record (some (k + 1)) (some t0))) := by
  have h1 : ¬ (now - t0 > config.windowSeconds * 1000) := by omega
  simp only [checkRateLimit, envOk, hrec, parseCounterRecord,
    jsNumOr_some_zero, jsNumOr_some_ne t0 now ht0]
  simp [h1]

/-- One `checkRateLimit` call on a healthy store whose record has
logically expired (`now - t0 > windowMs`): the window resets and the
call is admitted with `remaining = maxRequests - 1`. -/
lemma checkRateLimit_expired (store : Store) (clientId : String)
    (config : RateLimitConfig) (k t0 now : Int) (ht0 : t0 ≠ 0)
    (hmax : 0 < config.maxRequests)
    (hwin : now - t0 > config.windowSeconds * 1000)
    (hrec : store (rateLimitKey config clientId) = .record (some k) (some t0)) :
    checkRateLimit envOk store clientId config now =
      (⟨true, config.maxRequests - 1, now + config.windowSeconds * 1000, config.maxRequests⟩,
        storePut store (rateLimitKey config clientId) (.record (some 1) (some now))) := by
  have h2 : ¬ ((0 : Int) ≥ config.maxRequests) := by omega
  simp [checkRateLimit, envOk, hrec, parseCounterRecord,
    jsNumOr_some_zero, jsNumOr_some_ne t0 now ht0, hwin, h2]

/-- The status the claimed admission sequence predicts for the call at
index `i` when the stored count before the sequence is `k`. -/
def expectedStatus (m w t0 k : Int) (i : Nat) : RateLimitStatus :=
  if k + (i : Int) < m then
    ⟨true, m - (k + (i : Int) + 1), t0 + w, m⟩
  else
    ⟨false, 0, t0 + w, m⟩

lemma expectedStatus_succ (m w t0 k : Int) (i : Nat) :
    expectedStatus m w t0 k (i + 1) = expectedStatus m w t0 (k + 1) i := by
  unfold expectedStatus
  push_cast
  rw [show k + ((i : Int) + 1) = k + 1 + (i : Int) by ring]

lemma expectedStatus_ge (m w t0 k : Int) (hk : k ≥ m) (i : Nat) :
    expectedStatus m w t0 k i = ⟨false, 0, t0 + w, m⟩ := by
  unfold expectedStatus
  rw [if_neg]
  omega

/-- Invariant of a healthy-store admission sequence: starting from the
record `(k, t0)` with `1 ≤ k ≤ maxRequests` and all call times inside
the logical window, the statuses follow `expectedStatus` and the stored
count ends at `min (k + length) maxRequests`. -/
lemma checkSeq_record_invariant (clientId : String) (config : RateLimitConfig)
    (t0 : Int) (ht0 : t0 ≠ 0) :
    ∀ (ts : List Int) (store : Store) (k : Int), 1 ≤ k → k ≤ config.maxRequests →
      store (rateLimitKey config clientId) = .record (some k) (some t0) →
      (∀ t ∈ ts, t - t0 ≤ config.windowSeconds * 1000) →
      (checkSeq envOk clientId config ts store).1 =
        (List.range ts.length).map
          (expectedStatus config.maxRequests (config.windowSeconds * 1000) t0 k) ∧
      (checkSeq envOk clientId config ts store).2 (rateLimitKey config clientId) =
        .record
          (some (if k + (ts.length : Int) ≤ config.maxRequests then k + (ts.length : Int)
            else config.maxRequests))
          (some t0)
  | [], store, k, hk1, hkm, hrec, _ => by
    refine ⟨rfl, ?_⟩
    have hif : (if k + ((List.length ([] : List Int) : Int)) ≤ config.maxRequests
        then k + ((List.length ([] : List Int) : Int)) else config.maxRequests) = k := by
      simp only [List.length_nil, Nat.cast_zero, add_zero]
      rw [if_pos hkm]
    rw [hif]
    exact hrec
  | t :: ts, store, k, hk1, hkm, hrec, hts => by
    have hstep := checkRateLimit_record store clientId config k t0 t ht0
      (hts t (List.mem_cons_self t ts)) hrec
    have htstail : ∀ t' ∈ ts, t' - t0 ≤ config.windowSeconds * 1000 :=
      fun t' ht' => hts t' (List.mem_cons_of_mem t ht')
    by_cases hk : k ≥ config.maxRequests
    · -- over the limit: this call and every further call is rejected
      rw [if_pos hk] at hstep
      have ih := checkSeq_record_invariant clientId config t0 ht0 ts store k hk1 hkm hrec
        htstail
      refine ⟨?_, ?_⟩
      · simp only [checkSeq, hstep, ih.1, List.length_cons]
        rw [List.range_succ_eq_map, List.map_cons, List.map_map, List.cons_eq_cons]
        refine ⟨(expectedStatus_ge _ _ _ _ hk 0).symm, ?_⟩
        apply List.map_congr_left
        intro i _
        simp only [Function.comp_apply]
        rw [expectedStatus_ge _ _ _ _ hk, expectedStatus_ge _ _ _ _ hk]
      · simp only [checkSeq, hstep, ih.2, List.length_cons]
        have hif : (if k + ((ts.length : Int)) ≤ config.maxRequests
            then k + ((ts.length : Int)) else config.maxRequests) =
            (if k + (((ts.length + 1 : Nat) : Int)) ≤ config.maxRequests
            then k + (((ts.length + 1 : Nat) : Int)) else config.maxRequests) := by
          push_cast
          split_ifs <;> omega
        rw [hif]
    · -- under the limit: this call is admitted with the incremented count
      rw [if_neg hk] at hstep
      have hrec' : (storePut store (rateLimitKey config clientId)
          (.record (some (k + 1)) (some t0))) (rateLimitKey config clientId) =
          .record (some (k + 1)) (some t0) := by simp [storePut]
      have ih := checkSeq_record_invariant clientId config t0 ht0 ts _ (k + 1)
        (by omega) (by omega) hrec' htstail
      refine ⟨?_, ?_⟩
      · simp only [checkSeq, hstep, ih.1, List.length_cons]
        rw [List.range_succ_eq_map, List.map_cons, List.map_map, List.cons_eq_cons]
        constructor
        · unfold expectedStatus
          rw [if_pos (by push_cast; omega)]
          norm_num
        · apply List.map_congr_left
          intro i _
          simp only [Function.comp_apply]
          rw [show i.succ = i + 1 from rfl, expectedStatus_succ]
      · simp only [checkSeq, hstep, ih.2, List.length_cons]
        have hif : (if (k + 1) + ((ts.length : Int)) ≤ config.maxRequests
            then (k + 1) + ((ts.length : Int)) else config.maxRequests) =
            (if k + (((ts.length + 1 : Nat) : Int)) ≤ config.maxRequests
            then k + (((ts.length + 1 : Nat) : Int)) else config.maxRequests) := by
          push_cast
          split_ifs <;> omega
        rw [hif]


/-- The sequence of rejected calls on a healthy store: with the stored
count at or above the limit and every call inside the logical window,
each call returns the fixed rejection status and the store is returned
untouched. -/
lemma checkSeq_over_limit (clientId : String) (config : RateLimitConfig)
    (t0 k : Int) (ht0 : t0 ≠ 0) (hk : k ≥ config.maxRequests) :
    ∀ (ts : List Int) (store : Store),
      store (rateLimitKey config clientId) = .record (some k) (some t0) →
      (∀ t ∈ ts, t - t0 ≤ config.windowSeconds * 1000) →
      checkSeq envOk clientId config ts store =
        (ts.map (fun _ =>
          (⟨false, 0, t0 + config.windowSeconds * 1000, config.maxRequests⟩ :
            RateLimitStatus)), store)
  | [], _, _, _ => rfl
  | t :: ts, store, hrec, hts => by
    have hstep := checkRateLimit_record store clientId config k t0 t ht0
      (hts t (List.mem_cons_self t ts)) hrec
    rw [if_pos hk] at hstep
    have ih := checkSeq_over_limit clientId config t0 k ht0 hk ts store hrec
      (fun t' ht' => hts t' (List.mem_cons_of_mem t ht'))
    simp [checkSeq, hstep, ih]

lemma getRateLimitStatus_snd (env : CacheEnv) (store : Store) (request : NextRequest)
    (config : RateLimitConfig) (now : Int) :
    (getRateLimitStatus env store request config now).2 = store := by
  rcases h : store (rateLimitKey config (getClientIdentifier request)) with _ | _ | ⟨c, f⟩ <;>
    · simp [getRateLimitStatus, h]
      try split_ifs <;> rfl

lemma peekIter_eq (env : CacheEnv) (request : NextRequest) (config : RateLimitConfig)
    (now : Int) : ∀ (n : Nat) (store : Store),
    peekIter env request config now n store = store
  | 0, _ => rfl
  | n + 1, store => by
    rw [peekIter, getRateLimitStatus_snd, peekIter_eq env request config now n]

/-! ### Claim theorems -/

/-- C1 (confirmed).  For a fixed client and policy with
`maxRequests > 0`, with the store healthy (`envOk`) and the calls
issued sequentially within one window of the first call at `t0`
(a positive epoch-millis instant), the first `maxRequests` calls to
`checkRateLimit` are all allowed with `remaining` strictly decreasing
through `maxRequests - 1, ..., 0` (call `i` returns
`remaining = maxRequests - (i+1)`), and the `(maxRequests + 1)`-th call
is rejected with `remaining = 0`. -/
theorem checkRateLimit_monotonic_admission
    (config : RateLimitConfig) (clientId : String) (t0 : Int) (ts : List Int)
    (hmax : 0 < config.maxRequests) (hwin : 0 ≤ config.windowSeconds) (ht0 : t0 ≠ 0)
    (hts : ∀ t ∈ ts, t - t0 ≤ config.windowSeconds * 1000)
    (hlen : (ts.length : Int) = config.maxRequests) :
    (checkSeq envOk clientId config (t0 :: ts) emptyStore).1 =
      (List.range (ts.length + 1)).map
        (expectedStatus config.maxRequests (config.windowSeconds * 1000) t0 0) ∧
    (∀ i : Nat, i < ts.length →
      (checkSeq envOk clientId config (t0 :: ts) emptyStore).1[i]? =
        some ⟨true, config.maxRequests - ((i : Int) + 1),
          t0 + config.windowSeconds * 1000, config.maxRequests⟩) ∧
    (checkSeq envOk clientId config (t0 :: ts) emptyStore).1[ts.length]? =
      some ⟨false, 0, t0 + config.windowSeconds * 1000, config.maxRequests⟩ := by
  have hstep := checkRateLimit_absent emptyStore clientId config t0 hmax hwin rfl
  have hrec1 : (storePut emptyStore (rateLimitKey config clientId)
      (.record (some 1) (some t0))) (rateLimitKey config clientId) =
      .record (some 1) (some t0) := by simp [storePut]
  have inv := checkSeq_record_invariant clientId config t0 ht0 ts _ 1 le_rfl
    (by omega) hrec1 hts
  have hmain : (checkSeq envOk clientId config (t0 :: ts) emptyStore).1 =
      (List.range (ts.length + 1)).map
        (expectedStatus config.maxRequests (config.windowSeconds * 1000) t0 0) := by
    simp only [checkSeq, hstep, inv.1]
    rw [List.range_succ_eq_map, List.map_cons, List.map_map, List.cons_eq_cons]
    constructor
    · unfold expectedStatus
      rw [if_pos (by push_cast; omega)]
      norm_num
    · apply List.map_congr_left
      intro i _
      simp only [Function.comp_apply]
      rw [show i.succ = i + 1 from rfl, expectedStatus_succ]
      norm_num
  refine ⟨hmain, ?_, ?_⟩
  · intro i hi
    rw [hmain, List.getElem?_map, List.getElem?_range (by omega : i < ts.length + 1)]
    unfold expectedStatus
    simp only [Option.map_some']
    rw [if_pos (by omega)]
    norm_num
  · rw [hmain, List.getElem?_map, List.getElem?_range (by omega : ts.length < ts.length + 1)]
    unfold expectedStatus
    simp only [Option.map_some']
    rw [if_neg (by omega)]

/-- Witness for C1: policy `{maxRequests := 2, windowSeconds := 60}`,
three calls at 1000, 1500, 2000 ms: admitted with remaining 1, then 0,
then rejected. -/
theorem checkRateLimit_monotonic_admission_witness :
    (checkSeq envOk "1.2.3.4" ⟨2, 60, "rate-limit", []⟩ (1000 :: [1500, 2000]) emptyStore).1 =
      [⟨true, 1, 61000, 2⟩, ⟨true, 0, 61000, 2⟩, ⟨false, 0, 61000, 2⟩] := by
  have h := (checkRateLimit_monotonic_admission ⟨2, 60, "rate-limit", []⟩ "1.2.3.4" 1000
    [1500, 2000] (by norm_num) (by norm_num) (by norm_num) (by decide) (by norm_num)).1
  rw [h]
  decide

/-- C3 (corrected: admission requires time strictly greater than
`resetAt`).  With the stored count at or above the limit: every call
inside the window is rejected with the unchanged
`resetAt = firstRequestTime + windowMs` and the store is returned
untouched; and a call made strictly after `resetAt` is admitted with
`remaining = maxRequests - 1`, starting a fresh window. -/
theorem rejected_calls_frame_and_strict_expiry
    (config : RateLimitConfig) (clientId : String) (t0 k : Int) (ts : List Int)
    (store : Store)
    (hmax : 0 < config.maxRequests) (ht0 : t0 ≠ 0)
    (hk : k ≥ config.maxRequests)
    (hrec : store (rateLimitKey config clientId) = .record (some k) (some t0))
    (hts : ∀ t ∈ ts, t - t0 ≤ config.windowSeconds * 1000) :
    checkSeq envOk clientId config ts store =
      (ts.map (fun _ =>
        (⟨false, 0, t0 + config.windowSeconds * 1000, config.maxRequests⟩ :
          RateLimitStatus)), store) ∧
    ∀ now : Int, now > t0 + config.windowSeconds * 1000 →
      checkRateLimit envOk store clientId config now =
        (⟨true, config.maxRequests - 1, now + config.windowSeconds * 1000,
            config.maxRequests⟩,
          storePut store (rateLimitKey config clientId) (.record (some 1) (some now))) := by
  refine ⟨checkSeq_over_limit clientId config t0 k ht0 hk ts store hrec hts, ?_⟩
  intro now hnow
  exact checkRateLimit_expired store clientId config k t0 now ht0 hmax (by omega) hrec

/-- Witness for C3 (amended): with `{maxRequests := 1}` and the record
`(1, 1000)`, calls at 2000 and 3000 are rejected without touching the
store, and a call at 70000 (strictly after `resetAt = 61000`) is
admitted with `remaining = 0 = maxRequests - 1`. -/
theorem rejected_calls_frame_and_strict_expiry_witness :
    checkSeq envOk "1.2.3.4" cfg1 [2000, 3000] store11 =
      ([⟨false, 0, 61000, 1⟩, ⟨false, 0, 61000, 1⟩], store11) ∧
    checkRateLimit envOk store11 "1.2.3.4" cfg1 70000 =
      (⟨true, 0, 130000, 1⟩,
        storePut store11 (rateLimitKey cfg1 "1.2.3.4") (.record (some 1) (some 70000))) := by
  have h := rejected_calls_frame_and_strict_expiry cfg1 "1.2.3.4" 1000 1 [2000, 3000]
    store11 (by decide) (by decide) (by decide) (by decide) (by decide)
  exact ⟨h.1, h.2 70000 (by decide)⟩

/-- Counterexample for C3 as stated: at time exactly `resetAt`
(`time ≥ resetAt` with equality) the code still rejects, because the
reset test `now - firstRequestTime > windowMs` is strict.  With the
record `(1, 1000)` and a 60-second window, `resetAt = 61000`, and the
call at 61000 returns `allowed = false`, not the admission the claim
predicts. -/
theorem rejected_at_resetAt_not_admitted :
    (checkRateLimit envOk store11 "1.2.3.4" cfg1 61000).1.resetAt = 61000 ∧
    (61000 : Int) ≥ 61000 ∧
    (checkRateLimit envOk store11 "1.2.3.4" cfg1 61000).1.allowed = false := by decide

/-- C4 (confirmed).  `getRateLimitStatus` returns the store
unchanged in every branch (the source performs only `cache.get`), so
any number of peeks leaves the store identical and the next
`checkRateLimit` outcome is exactly the outcome with no intervening
peeks. -/
theorem getRateLimitStatus_pure_peek (env : CacheEnv) (store : Store)
    (request : NextRequest) (config : RateLimitConfig) (now : Int) (n : Nat)
    (tCheck : Int) :
    (getRateLimitStatus env store request config now).2 = store ∧
    peekIter env request config now n store = store ∧
    checkRateLimit env (peekIter env request config now n store)
        (getClientIdentifier request) config tCheck =
      checkRateLimit env store (getClientIdentifier request) config tCheck := by
  refine ⟨getRateLimitStatus_snd env store request config now,
    peekIter_eq env request config now n store, ?_⟩
  rw [peekIter_eq env request config now n store]

/-- C5 (corrected: the put-failure fallback applies only to calls
that reach the put, i.e. calls not already rejected by the stored
count).  When the cache client cannot be created or `get` fails,
`checkRateLimit` returns the fail-open status
`{allowed := true, remaining := maxRequests}` and an unchanged store,
regardless of stored state.  When `put` fails, the store is likewise
unchanged and the call either returns that fail-open status or was
already rejected (`allowed = false, remaining = 0`) before any write
was attempted; in every case the fault is absorbed. -/
theorem checkRateLimit_fail_open (env : CacheEnv) (store : Store) (clientId : String)
    (config : RateLimitConfig) (now : Int) :
    (env.available = false ∨ env.getFails = true →
      checkRateLimit env store clientId config now =
        (⟨true, config.maxRequests, now + config.windowSeconds * 1000,
            config.maxRequests⟩, store)) ∧
    (env.putFails = true →
      (checkRateLimit env store clientId config now).2 = store ∧
      ((checkRateLimit env store clientId config now).1 =
          ⟨true, config.maxRequests, now + config.windowSeconds * 1000,
            config.maxRequests⟩ ∨
        ((checkRateLimit env store clientId config now).1.allowed = false ∧
          (checkRateLimit env store clientId config now).1.remaining = 0))) := by
  constructor
  · intro h
    rcases h with h | h
    · simp [checkRateLimit, h]
    · by_cases ha : env.available = false
      · simp [checkRateLimit, ha]
      · simp [checkRateLimit, ha, h]
  · intro hput
    simp only [checkRateLimit, hput]
    split_ifs <;> simp

/-- Witness for C5 (amended): a missing cache client fails open even
over a stored count of 5, and a failing put on an empty store fails
open without writing. -/
theorem checkRateLimit_fail_open_witness :
    checkRateLimit ⟨false, false, false⟩ store51 "1.2.3.4" cfg3 2000 =
      (⟨true, 3, 62000, 3⟩, store51) ∧
    ((checkRateLimit ⟨true, false, true⟩ emptyStore "1.2.3.4" cfg3 2000).2 = emptyStore ∧
      ((checkRateLimit ⟨true, false, true⟩ emptyStore "1.2.3.4" cfg3 2000).1 =
          ⟨true, 3, 62000, 3⟩ ∨
        ((checkRateLimit ⟨true, false, true⟩ emptyStore "1.2.3.4" cfg3 2000).1.allowed = false ∧
          (checkRateLimit ⟨true, false, true⟩ emptyStore "1.2.3.4" cfg3 2000).1.remaining = 0))) :=
  ⟨(checkRateLimit_fail_open ⟨false, false, false⟩ store51 "1.2.3.4" cfg3 2000).1 (Or.inl rfl),
    (checkRateLimit_fail_open ⟨true, false, true⟩ emptyStore "1.2.3.4" cfg3 2000).2 rfl⟩

/-- Counterexample for C5 as stated: with the cache present, `get`
succeeding and `put` failing, a call whose stored count (5) is at or
above the limit (3) is rejected — `allowed = false, remaining = 0` —
not the claimed `allowed = true, remaining = maxRequests`: the rejected
path never reaches the failing `put`. -/
theorem put_failure_rejected_counterexample :
    (⟨true, false, true⟩ : CacheEnv).putFails = true ∧
    (checkRateLimit ⟨true, false, true⟩ store51 "1.2.3.4" cfg3 2000).1.allowed = false ∧
    (checkRateLimit ⟨true, false, true⟩ store51 "1.2.3.4" cfg3 2000).1.remaining = 0 := by
  decide

/-- An integer-valued rational strictly below an integer bound is at
least one below it. -/
lemma intCount_lt_add_one_le (c : Rat) (m : Int) (hden : c.den = 1)
    (hlt : c < (m : Rat)) : c + 1 ≤ (m : Rat) := by
  have hc : ((c.num : Rat)) = c := by
    conv_rhs => rw [← Rat.num_div_den c]
    rw [hden]
    norm_num
  rw [← hc] at hlt ⊢
  have h1 : c.num < m := by exact_mod_cast hlt
  have h2 : c.num + 1 ≤ m := by omega
  exact_mod_cast h2

/-- Over the exact-number store, `checkRateLimit` returns a
non-negative `remaining` whenever the stored count field is an
integer. -/
lemma checkRateLimitQ_remaining_nonneg (env : CacheEnv) (store : StoreQ)
    (clientId : String) (config : RateLimitConfig) (now : Int)
    (hmax : 0 < config.maxRequests)
    (hint : hasIntCount (store (rateLimitKey config clientId)) = true) :
    0 ≤ (checkRateLimitQ env store clientId config now).1.remaining := by
  have hm0 : (0 : Rat) ≤ (config.maxRequests : Rat) := by exact_mod_cast hmax.le
  have hstep : ∀ q : Rat, q.den = 1 → ¬ (q ≥ (config.maxRequests : Rat)) →
      0 ≤ (config.maxRequests : Rat) - (q + 1) := by
    intro q hq hlt
    have := intCount_lt_add_one_le q config.maxRequests hq (not_le.mp hlt)
    linarith
  rcases h : store (rateLimitKey config clientId) with _ | _ | ⟨c, f⟩
  · simp only [checkRateLimitQ, h, parseCounterRecordQ]
    split_ifs <;>
      first
        | exact hm0
        | (exact hstep _ rfl (by assumption))
        | norm_num
  · simp only [checkRateLimitQ, h, parseCounterRecordQ]
    split_ifs <;>
      first
        | exact hm0
        | (exact hstep _ rfl (by assumption))
        | norm_num
  · rcases c with _ | c
    · simp only [checkRateLimitQ, h, parseCounterRecordQ, jsNumOrQ]
      split_ifs <;>
        first
          | exact hm0
          | (exact hstep _ rfl (by assumption))
          | norm_num
    · rw [h] at hint
      have hden : c.den = 1 := by simpa [hasIntCount] using hint
      simp only [checkRateLimitQ, h, parseCounterRecordQ, jsNumOrQ]
      split_ifs <;>
        first
          | exact hm0
          | (exact hstep _ rfl (by assumption))
          | (exact hstep c hden (by assumption))
          | norm_num

/-- Over the exact-number store, `getRateLimitStatus` clamps with
`Math.max(0, ...)`, so its `remaining` is non-negative for every store
content. -/
lemma getRateLimitStatusQ_remaining_nonneg (env : CacheEnv) (store : StoreQ)
    (request : NextRequest) (config : RateLimitConfig) (now : Int)
    (hmax : 0 < config.maxRequests) :
    0 ≤ (getRateLimitStatusQ env store request config now).1.remaining := by
  have hm0 : (0 : Rat) ≤ (config.maxRequests : Rat) := by exact_mod_cast hmax.le
  rcases h : store (rateLimitKey config (getClientIdentifier request)) with _ | _ | ⟨c, f⟩ <;>
    · simp only [getRateLimitStatusQ, h]
      split_ifs <;>
        first
          | exact hm0
          | exact le_max_left 0 _

/-- C9 (corrected: over arbitrary JSON numbers, `checkRateLimit`'s
`remaining ≥ 0` needs an integer stored count).  For every store
environment and content and `maxRequests > 0`: both operations always
return `limit = maxRequests`; `getRateLimitStatus` (which clamps with
`Math.max(0, ...)`) returns `remaining ≥ 0` unconditionally; and
`checkRateLimit` returns `remaining ≥ 0` whenever the stored count
field is an integer — in particular for absent or unparsable data,
records without a count field, and every record the limiter itself
writes.  A corrupted fractional count strictly below the limit breaks
the claim as stated (see the counterexample). -/
theorem rate_limit_status_invariant_exact (env : CacheEnv) (store : StoreQ)
    (clientId : String) (request : NextRequest) (config : RateLimitConfig)
    (now : Int) (hmax : 0 < config.maxRequests) :
    (checkRateLimitQ env store clientId config now).1.limit =
      (config.maxRequests : Rat) ∧
    (getRateLimitStatusQ env store request config now).1.limit =
      (config.maxRequests : Rat) ∧
    0 ≤ (getRateLimitStatusQ env store request config now).1.remaining ∧
    (hasIntCount (store (rateLimitKey config clientId)) = true →
      0 ≤ (checkRateLimitQ env store clientId config now).1.remaining) := by
  refine ⟨?_, ?_, getRateLimitStatusQ_remaining_nonneg env store request config now hmax,
    fun hint => checkRateLimitQ_remaining_nonneg env store clientId config now hmax hint⟩
  · simp only [checkRateLimitQ]
    split_ifs <;> rfl
  · rcases h : store (rateLimitKey config (getClientIdentifier request)) with _ | _ | ⟨c, f⟩ <;>
    · simp only [getRateLimitStatusQ, h]
      split_ifs <;> rfl

/-- Witness for C9 (amended): the integer record `(5, 1000)` — a count
above the limit 3 — yields `limit = 3` from both operations,
`remaining ≥ 0` from the status query, and `remaining ≥ 0` from the
check. -/
theorem rate_limit_status_invariant_exact_witness :
    (checkRateLimitQ envOk storeQ51 "1.2.3.4" cfg3 2000).1.limit =
      (cfg3.maxRequests : Rat) ∧
    (getRateLimitStatusQ envOk storeQ51 reqIp cfg3 2000).1.limit =
      (cfg3.maxRequests : Rat) ∧
    0 ≤ (getRateLimitStatusQ envOk storeQ51 reqIp cfg3 2000).1.remaining ∧
    0 ≤ (checkRateLimitQ envOk storeQ51 "1.2.3.4" cfg3 2000).1.remaining := by
  have h := rate_limit_status_invariant_exact envOk storeQ51 "1.2.3.4" reqIp cfg3 2000
    (by decide)
  exact ⟨h.1, h.2.1, h.2.2.1, h.2.2.2 (by decide)⟩

/-- Counterexample for C9 as stated: the corrupted record
`{"count": 2.5, "firstRequestTime": 1000}` under limit 3 is admitted
(`2.5 >= 3` is false), the count is incremented to `3.5`, and
`checkRateLimit`'s admitted branch — which, unlike
`getRateLimitStatus`, has no `Math.max` clamp — returns
`remaining = 3 - 3.5 = -0.5 < 0`, refuting `remaining ≥ 0` over
arbitrary store contents. -/
theorem fractional_count_negative_remaining :
    (checkRateLimitQ envOk storeHalf "1.2.3.4" cfg3 2000).1.allowed = true ∧
    (checkRateLimitQ envOk storeHalf "1.2.3.4" cfg3 2000).1.remaining = -(1/2) ∧
    ¬ (0 ≤ (checkRateLimitQ envOk storeHalf "1.2.3.4" cfg3 2000).1.remaining) := by
  have hred : checkRateLimitQ envOk storeHalf "1.2.3.4" cfg3 2000 =
      (⟨true, -(1/2), 1000 + 60000, 3⟩,
        storePutQ storeHalf (rateLimitKey cfg3 "1.2.3.4")
          (.record (some (5/2 + 1)) (some 1000))) := by
    norm_num [checkRateLimitQ, storeHalf, storePutQ, parseCounterRecordQ, jsNumOrQ,
      envOk, cfg3]
  rw [hred]
  norm_num

/-! ### Header-lookup lemmas -/

lemma headerGet_cons_pos (p : String × String) (hs : List (String × String))
    (name : String) (h : (p.1 == name) = true) :
    headerGet (p :: hs) name = some p.2 := by
  unfold headerGet
  simp only [List.find?_cons, h, cond_true]
  rfl

lemma headerGet_cons_neg (p : String × String) (hs : List (String × String))
    (name : String) (h : (p.1 == name) = false) :
    headerGet (p :: hs) name = headerGet hs name := by
  unfold headerGet
  simp only [List.find?_cons, h, cond_false]

/-- Mirror of the disequality: `name2 ≠ name` gives `name ≠ name2`. -/
lemma beq_false_symm (name name2 : String) (h : (name2 == name) = false) :
    (name == name2) = false := by
  simp only [beq_eq_false_iff_ne] at h ⊢
  exact fun hne => h hne.symm

lemma headerGet_append_single (name name2 value : String)
    (h1 : (name == name2) = false) :
    ∀ hs : List (String × String),
      headerGet (hs ++ [(name, value)]) name2 = headerGet hs name2
  | [] => by
    rw [List.nil_append, headerGet_cons_neg _ _ _ h1]
  | p :: hs => by
    rw [List.cons_append]
    by_cases h2 : (p.1 == name2) = true
    · rw [headerGet_cons_pos _ _ _ h2, headerGet_cons_pos _ _ _ h2]
    · have h2f : (p.1 == name2) = false := by simpa using h2
      rw [headerGet_cons_neg _ _ _ h2f, headerGet_cons_neg _ _ _ h2f]
      exact headerGet_append_single name name2 value h1 hs

lemma headerGet_map_replace (name name2 value : String)
    (h : (name2 == name) = false) :
    ∀ hs : List (String × String),
      headerGet (hs.map (fun p => if p.1 == name then (name, value) else p)) name2 =
        headerGet hs name2
  | [] => rfl
  | p :: hs => by
    have ih := headerGet_map_replace name name2 value h hs
    simp only [List.map_cons]
    by_cases hp : (p.1 == name) = true
    · have hpe : p.1 = name := by simpa using hp
      have h1 : (name == name2) = false := beq_false_symm name name2 h
      have h2 : (p.1 == name2) = false := by rw [hpe]; exact h1
      rw [if_pos hp, headerGet_cons_neg _ _ _ h1, headerGet_cons_neg _ _ _ h2]
      exact ih
    · have hpf : (p.1 == name) = false := by simpa using hp
      rw [if_neg (by simp [hpf])]
      by_cases h2 : (p.1 == name2) = true
      · rw [headerGet_cons_pos _ _ _ h2, headerGet_cons_pos _ _ _ h2]
      · have h2f : (p.1 == name2) = false := by simpa using h2
        rw [headerGet_cons_neg _ _ _ h2f, headerGet_cons_neg _ _ _ h2f]
        exact ih

lemma headerGet_set_self (hs : List (String × String)) (name value : String) :
    headerGet (headersSet hs name value) name = some value := by
  induction hs with
  | nil =>
    rw [headersSet, if_neg (by simp), List.nil_append,
      headerGet_cons_pos _ _ _ (by simp)]
  | cons p hs ih =>
    by_cases hp : (p.1 == name) = true
    · rw [headersSet, if_pos (by simp [List.any_cons, hp])]
      simp only [List.map_cons]
      rw [if_pos hp, headerGet_cons_pos _ _ _ (by simp)]
    · have hpf : (p.1 == name) = false := by simpa using hp
      have hjoin : ((p :: hs).any fun q => q.1 == name) = (hs.any fun q => q.1 == name) := by
        simp [List.any_cons, hpf]
      by_cases ha : (hs.any fun q => q.1 == name) = true
      · rw [headersSet, if_pos (by rw [hjoin]; exact ha)]
        rw [headersSet, if_pos ha] at ih
        simp only [List.map_cons]
        rw [if_neg (by simp [hpf]), headerGet_cons_neg _ _ _ hpf]
        exact ih
      · rw [headersSet, if_neg (by rw [hjoin]; exact ha)]
        rw [headersSet, if_neg ha] at ih
        rw [List.cons_append, headerGet_cons_neg _ _ _ hpf]
        exact ih

lemma headerGet_set_other (hs : List (String × String)) (name name2 value : String)
    (h : (name2 == name) = false) :
    headerGet (headersSet hs name value) name2 = headerGet hs name2 := by
  unfold headersSet
  split_ifs with ha
  · exact headerGet_map_replace name name2 value h hs
  · exact headerGet_append_single name name2 value (beq_false_symm name name2 h) hs

/-- The three `X-RateLimit-*` headers attached by
`addRateLimitHeaders` are retrievable with the values of the status. -/
lemma addRateLimitHeaders_headers (response : NextResponse) (st : RateLimitStatus) :
    headerGet (addRateLimitHeaders response st).headers "X-RateLimit-Limit" =
      some (toString st.limit) ∧
    headerGet (addRateLimitHeaders response st).headers "X-RateLimit-Remaining" =
      some (toString st.remaining) ∧
    headerGet (addRateLimitHeaders response st).headers "X-RateLimit-Reset" =
      some (toString (st.resetAt.ediv 1000)) := by
  unfold addRateLimitHeaders
  refine ⟨?_, ?_, ?_⟩
  · rw [headerGet_set_other _ _ _ _ (by decide), headerGet_set_other _ _ _ _ (by decide),
      headerGet_set_self]
  · rw [headerGet_set_other _ _ _ _ (by decide), headerGet_set_self]
  · rw [headerGet_set_self]

/-- Headers other than the three `X-RateLimit-*` names are untouched
by `addRateLimitHeaders`. -/
lemma addRateLimitHeaders_other (response : NextResponse) (st : RateLimitStatus)
    (name : String) (h1 : (name == "X-RateLimit-Limit") = false)
    (h2 : (name == "X-RateLimit-Remaining") = false)
    (h3 : (name == "X-RateLimit-Reset") = false) :
    headerGet (addRateLimitHeaders response st).headers name =
      headerGet response.headers name := by
  unfold addRateLimitHeaders
  rw [headerGet_set_other _ _ _ _ h3, headerGet_set_other _ _ _ _ h2,
    headerGet_set_other _ _ _ _ h1]

/-- The 429 response of `withRateLimit` is the rate-limit headers
added onto a 429 with the error body and a lone `Retry-After`
header. -/
lemma rateLimitRejectionResponse_eq (st : RateLimitStatus) (now : Int) :
    rateLimitRejectionResponse st now =
      addRateLimitHeaders
        ⟨429,
          Body.error ⟨false, ErrorType.RATE_LIMIT_ERROR, rateLimitMessage,
            some (.rateLimitInfo st.limit st.resetAt (ceilDivInt (st.resetAt - now) 1000)),
            none⟩,
          [("Retry-After", toString (ceilDivInt (st.resetAt - now) 1000))]⟩ st := rfl

/-- With rate limiting enabled and no skip-path match, `withRateLimit`
is the limiter check followed by either the 429 rejection response or
the handler's response with headers added. -/
lemma withRateLimit_reduce (env : CacheEnv) (store : Store) (request : NextRequest)
    (handlerResp : NextResponse) (config : RateLimitConfig) (now : Int)
    (hskip : (config.skipPaths.any fun path => startsWithStr request.pathname path) = false) :
    withRateLimit true env store request handlerResp config now =
      (if (checkRateLimit env store (getClientIdentifier request) config now).1.allowed = false
        then rateLimitRejectionResponse
          (checkRateLimit env store (getClientIdentifier request) config now).1 now
        else addRateLimitHeaders handlerResp
          (checkRateLimit env store (getClientIdentifier request) config now).1,
        (checkRateLimit env store (getClientIdentifier request) config now).2) := by
  unfold withRateLimit
  rw [if_neg (by simp), if_neg (by simp [hskip])]
  show (if (checkRateLimit env store (getClientIdentifier request) config now).1.allowed = false
      then (rateLimitRejectionResponse
          (checkRateLimit env store (getClientIdentifier request) config now).1 now,
        (checkRateLimit env store (getClientIdentifier request) config now).2)
      else (addRateLimitHeaders handlerResp
          (checkRateLimit env store (getClientIdentifier request) config now).1,
        (checkRateLimit env store (getClientIdentifier request) config now).2)) = _
  split_ifs <;> rfl

/-- C6 (confirmed).  On rejection `withRateLimit` returns HTTP 429
with body `{success := false, error := {type := RATE_LIMIT_ERROR,
message, details := {limit, resetAt, retryAfter}}}`, the `Retry-After`
header equal to `ceil((resetAt - now) / 1000)` seconds, and the three
`X-RateLimit-*` headers; on admission it returns the handler's
response with `X-RateLimit-Limit`, `X-RateLimit-Remaining` and
`X-RateLimit-Reset` (`floor(resetAt / 1000)` unix seconds) attached.
Concretely, for policy `{maxRequests := 3, windowSeconds := 60}` and
calls at `T, T+1s, T+2s, T+3s`, the first three are admitted with
remaining `2, 1, 0` and the call at `T+3s` is rejected with HTTP 429
and `Retry-After = 57`. -/
theorem withRateLimit_response_shape
    (env : CacheEnv) (store : Store) (request : NextRequest) (handlerResp : NextResponse)
    (config : RateLimitConfig) (now T : Int) (st : RateLimitStatus)
    (hskip : (config.skipPaths.any fun path => startsWithStr request.pathname path) = false)
    (hst : (checkRateLimit env store (getClientIdentifier request) config now).1 = st)
    (hT : T ≠ 0) :
    (st.allowed = false →
      (withRateLimit true env store request handlerResp config now).1 =
        ⟨429,
          Body.error ⟨false, ErrorType.RATE_LIMIT_ERROR, rateLimitMessage,
            some (.rateLimitInfo st.limit st.resetAt (ceilDivInt (st.resetAt - now) 1000)),
            none⟩,
          [("Retry-After", toString (ceilDivInt (st.resetAt - now) 1000)),
            ("X-RateLimit-Limit", toString st.limit),
            ("X-RateLimit-Remaining", toString st.remaining),
            ("X-RateLimit-Reset", toString (st.resetAt.ediv 1000))]⟩) ∧
    (st.allowed = true →
      (withRateLimit true env store request handlerResp config now).1 =
        addRateLimitHeaders handlerResp st ∧
      headerGet (addRateLimitHeaders handlerResp st).headers "X-RateLimit-Limit" =
        some (toString st.limit) ∧
      headerGet (addRateLimitHeaders handlerResp st).headers "X-RateLimit-Remaining" =
        some (toString st.remaining) ∧
      headerGet (addRateLimitHeaders handlerResp st).headers "X-RateLimit-Reset" =
        some (toString (st.resetAt.ediv 1000))) ∧
    ((withRateLimitSeq true envOk reqIp respOk cfg3 [T, T + 1000, T + 2000, T + 3000]
        emptyStore).1.map (fun r => r.status) = [200, 200, 200, 429] ∧
      (withRateLimitSeq true envOk reqIp respOk cfg3 [T, T + 1000, T + 2000, T + 3000]
        emptyStore).1.map (fun r => headerGet r.headers "X-RateLimit-Remaining") =
        [some "2", some "1", some "0", some "0"] ∧
      (withRateLimitSeq true envOk reqIp respOk cfg3 [T, T + 1000, T + 2000, T + 3000]
        emptyStore).1.map (fun r => headerGet r.headers "Retry-After") =
        [none, none, none, some "57"]) := by
  have hm3 : cfg3.maxRequests = 3 := rfl
  have hw3 : cfg3.windowSeconds = 60 := rfl
  have hid : getClientIdentifier reqIp = "1.2.3.4" := rfl
  have hskip3 : (cfg3.skipPaths.any fun path => startsWithStr reqIp.pathname path) = false := rfl
  refine ⟨?_, ?_, ?_⟩
  · intro hal
    rw [withRateLimit_reduce env store request handlerResp config now hskip]
    simp only [hst]
    simp [hal, rateLimitRejectionResponse_eq, addRateLimitHeaders, headersSet]
  · intro hal
    have hmain : (withRateLimit true env store request handlerResp config now).1 =
        addRateLimitHeaders handlerResp st := by
      rw [withRateLimit_reduce env store request handlerResp config now hskip]
      simp [hst, hal]
    exact ⟨hmain, (addRateLimitHeaders_headers handlerResp st).1,
      (addRateLimitHeaders_headers handlerResp st).2.1,
      (addRateLimitHeaders_headers handlerResp st).2.2⟩
  · -- the concrete scenario: four limiter steps from the empty store
    have hc1 : checkRateLimit envOk emptyStore "1.2.3.4" cfg3 T =
        (⟨true, 2, T + 60000, 3⟩,
          storePut emptyStore (rateLimitKey cfg3 "1.2.3.4") (.record (some 1) (some T))) := by
      rw [checkRateLimit_absent emptyStore "1.2.3.4" cfg3 T (by decide) (by decide) rfl,
        hm3, hw3]
      try norm_num
    have hr1 : (storePut emptyStore (rateLimitKey cfg3 "1.2.3.4") (.record (some 1) (some T)))
        (rateLimitKey cfg3 "1.2.3.4") = .record (some 1) (some T) := by simp [storePut]
    have hc2 : checkRateLimit envOk
        (storePut emptyStore (rateLimitKey cfg3 "1.2.3.4") (.record (some 1) (some T)))
        "1.2.3.4" cfg3 (T + 1000) =
        (⟨true, 1, T + 60000, 3⟩,
          storePut
            (storePut emptyStore (rateLimitKey cfg3 "1.2.3.4") (.record (some 1) (some T)))
            (rateLimitKey cfg3 "1.2.3.4") (.record (some 2) (some T))) := by
      have h := checkRateLimit_record _ "1.2.3.4" cfg3 1 T (T + 1000) hT
        (by rw [hw3]; omega) hr1
      rw [if_neg (by rw [hm3]; omega)] at h
      rw [h, hm3, hw3]
      try norm_num
    have hr2 : (storePut
        (storePut emptyStore (rateLimitKey cfg3 "1.2.3.4") (.record (some 1) (some T)))
        (rateLimitKey cfg3 "1.2.3.4") (.record (some 2) (some T)))
        (rateLimitKey cfg3 "1.2.3.4") = .record (some 2) (some T) := by simp [storePut]
    have hc3 : checkRateLimit envOk
        (storePut
          (storePut emptyStore (rateLimitKey cfg3 "1.2.3.4") (.record (some 1) (some T)))
          (rateLimitKey cfg3 "1.2.3.4") (.record (some 2) (some T)))
        "1.2.3.4" cfg3 (T + 2000) =
        (⟨true, 0, T + 60000, 3⟩,
          storePut
            (storePut
              (storePut emptyStore (rateLimitKey cfg3 "1.2.3.4") (.record (some 1) (some T)))
              (rateLimitKey cfg3 "1.2.3.4") (.record (some 2) (some T)))
            (rateLimitKey cfg3 "1.2.3.4") (.record (some 3) (some T))) := by
      have h := checkRateLimit_record _ "1.2.3.4" cfg3 2 T (T + 2000) hT
        (by rw [hw3]; omega) hr2
      rw [if_neg (by rw [hm3]; omega)] at h
      rw [h, hm3, hw3]
      try norm_num
    have hr3 : (storePut
        (storePut
          (storePut emptyStore (rateLimitKey cfg3 "1.2.3.4") (.record (some 1) (some T)))
          (rateLimitKey cfg3 "1.2.3.4") (.record (some 2) (some T)))
        (rateLimitKey cfg3 "1.2.3.4") (.record (some 3) (some T)))
        (rateLimitKey cfg3 "1.2.3.4") = .record (some 3) (some T) := by simp [storePut]
    have hc4 : checkRateLimit envOk
        (storePut
          (storePut
            (storePut emptyStore (rateLimitKey cfg3 "1.2.3.4") (.record (some 1) (some T)))
            (rateLimitKey cfg3 "1.2.3.4") (.record (some 2) (some T)))
          (rateLimitKey cfg3 "1.2.3.4") (.record (some 3) (some T)))
        "1.2.3.4" cfg3 (T + 3000) =
        (⟨false, 0, T + 60000, 3⟩,
          storePut
            (storePut
              (storePut emptyStore (rateLimitKey cfg3 "1.2.3.4") (.record (some 1) (some T)))
              (rateLimitKey cfg3 "1.2.3.4") (.record (some 2) (some T)))
            (rateLimitKey cfg3 "1.2.3.4") (.record (some 3) (some T))) := by
      have h := checkRateLimit_record _ "1.2.3.4" cfg3 3 T (T + 3000) hT
        (by rw [hw3]; omega) hr3
      rw [if_pos (by rw [hm3])] at h
      rw [h, hm3, hw3]
      try norm_num
    have hw1 : withRateLimit true envOk emptyStore reqIp respOk cfg3 T =
        (addRateLimitHeaders respOk ⟨true, 2, T + 60000, 3⟩,
          storePut emptyStore (rateLimitKey cfg3 "1.2.3.4") (.record (some 1) (some T))) := by
      rw [withRateLimit_reduce envOk emptyStore reqIp respOk cfg3 T hskip3, hid, hc1]
      simp
    have hw2 : withRateLimit true envOk
        (storePut emptyStore (rateLimitKey cfg3 "1.2.3.4") (.record (some 1) (some T)))
        reqIp respOk cfg3 (T + 1000) =
        (addRateLimitHeaders respOk ⟨true, 1, T + 60000, 3⟩,
          storePut
            (storePut emptyStore (rateLimitKey cfg3 "1.2.3.4") (.record (some 1) (some T)))
            (rateLimitKey cfg3 "1.2.3.4") (.record (some 2) (some T))) := by
      rw [withRateLimit_reduce envOk _ reqIp respOk cfg3 (T + 1000) hskip3, hid, hc2]
      simp
    have hw3' : withRateLimit true envOk
        (storePut
          (storePut emptyStore (rateLimitKey cfg3 "1.2.3.4") (.record (some 1) (some T)))
          (rateLimitKey cfg3 "1.2.3.4") (.record (some 2) (some T)))
        reqIp respOk cfg3 (T + 2000) =
        (addRateLimitHeaders respOk ⟨true, 0, T + 60000, 3⟩,
          storePut
            (storePut
              (storePut emptyStore (rateLimitKey cfg3 "1.2.3.4") (.record (some 1) (some T)))
              (rateLimitKey cfg3 "1.2.3.4") (.record (some 2) (some T)))
            (rateLimitKey cfg3 "1.2.3.4") (.record (some 3) (some T))) := by
      rw [withRateLimit_reduce envOk _ reqIp respOk cfg3 (T + 2000) hskip3, hid, hc3]
      simp
    have hw4 : withRateLimit true envOk
        (storePut
          (storePut
            (storePut emptyStore (rateLimitKey cfg3 "1.2.3.4") (.record (some 1) (some T)))
            (rateLimitKey cfg3 "1.2.3.4") (.record (some 2) (some T)))
          (rateLimitKey cfg3 "1.2.3.4") (.record (some 3) (some T)))
        reqIp respOk cfg3 (T + 3000) =
        (rateLimitRejectionResponse ⟨false, 0, T + 60000, 3⟩ (T + 3000),
          storePut
            (storePut
              (storePut emptyStore (rateLimitKey cfg3 "1.2.3.4") (.record (some 1) (some T)))
              (rateLimitKey cfg3 "1.2.3.4") (.record (some 2) (some T)))
            (rateLimitKey cfg3 "1.2.3.4") (.record (some 3) (some T))) := by
      rw [withRateLimit_reduce envOk _ reqIp respOk cfg3 (T + 3000) hskip3, hid, hc4]
      simp
    have hseq : (withRateLimitSeq true envOk reqIp respOk cfg3
        [T, T + 1000, T + 2000, T + 3000] emptyStore).1 =
        [addRateLimitHeaders respOk ⟨true, 2, T + 60000, 3⟩,
          addRateLimitHeaders respOk ⟨true, 1, T + 60000, 3⟩,
          addRateLimitHeaders respOk ⟨true, 0, T + 60000, 3⟩,
          rateLimitRejectionResponse ⟨false, 0, T + 60000, 3⟩ (T + 3000)] := by
      simp only [withRateLimitSeq, hw1, hw2, hw3', hw4]
    have hra0 : ∀ st2 : RateLimitStatus,
        headerGet (addRateLimitHeaders respOk st2).headers "Retry-After" = none := by
      intro st2
      rw [addRateLimitHeaders_other respOk st2 _ (by decide) (by decide) (by decide)]
      decide
    have hrarej : headerGet
        (rateLimitRejectionResponse ⟨false, 0, T + 60000, 3⟩ (T + 3000)).headers
        "Retry-After" = some "57" := by
      rw [rateLimitRejectionResponse_eq,
        addRateLimitHeaders_other _ _ _ (by decide) (by decide) (by decide)]
      show some (toString (ceilDivInt
        ((⟨false, 0, T + 60000, 3⟩ : RateLimitStatus).resetAt - (T + 3000)) 1000)) = some "57"
      have harith : (⟨false, 0, T + 60000, 3⟩ : RateLimitStatus).resetAt - (T + 3000) = 57000 := by
        show T + 60000 - (T + 3000) = 57000
        ring
      rw [harith]
      decide
    have hremrej : headerGet
        (rateLimitRejectionResponse ⟨false, 0, T + 60000, 3⟩ (T + 3000)).headers
        "X-RateLimit-Remaining" = some "0" := by
      rw [rateLimitRejectionResponse_eq, (addRateLimitHeaders_headers _ _).2.1]
      rfl
    refine ⟨?_, ?_, ?_⟩
    · rw [hseq]
      simp only [List.map_cons, List.map_nil]
      rfl
    · rw [hseq]
      simp only [List.map_cons, List.map_nil,
        (addRateLimitHeaders_headers respOk ⟨true, 2, T + 60000, 3⟩).2.1,
        (addRateLimitHeaders_headers respOk ⟨true, 1, T + 60000, 3⟩).2.1,
        (addRateLimitHeaders_headers respOk ⟨true, 0, T + 60000, 3⟩).2.1,
        hremrej]
      rfl
    · rw [hseq]
      simp only [List.map_cons, List.map_nil, hra0, hrarej]

/-- Witness for C6: with the stored count 5 over the limit 3, the call
at 2000 yields the 429 response with `Retry-After = 59`; on the empty
store the handler response comes back with the headers attached; and
the scenario at base time `T = 1000` has `Retry-After = 57` on the
fourth call only. -/
theorem withRateLimit_response_shape_witness :
    (withRateLimit true envOk store51 reqIp respOk cfg3 2000).1 =
      ⟨429,
        Body.error ⟨false, ErrorType.RATE_LIMIT_ERROR, rateLimitMessage,
          some (.rateLimitInfo 3 61000 59), none⟩,
        [("Retry-After", "59"), ("X-RateLimit-Limit", "3"), ("X-RateLimit-Remaining", "0"),
          ("X-RateLimit-Reset", "61")]⟩ ∧
    (withRateLimit true envOk emptyStore reqIp respOk cfg3 2000).1 =
      addRateLimitHeaders respOk ⟨true, 2, 62000, 3⟩ ∧
    ((withRateLimitSeq true envOk reqIp respOk cfg3
        [1000, 1000 + 1000, 1000 + 2000, 1000 + 3000] emptyStore).1.map
      (fun r => headerGet r.headers "Retry-After")) = [none, none, none, some "57"] := by
  have ha := withRateLimit_response_shape envOk store51 reqIp respOk cfg3 2000 1000
    ⟨false, 0, 61000, 3⟩ rfl (by decide) (by decide)
  have hb := withRateLimit_response_shape envOk emptyStore reqIp respOk cfg3 2000 1000
    ⟨true, 2, 62000, 3⟩ rfl (by decide) (by decide)
  refine ⟨?_, (hb.2.1 rfl).1, ha.2.2.2.2⟩
  rw [ha.1 rfl]
  decide

/-- C2 (corrected: `withErrorHandling` re-throws instead of
normalizing).  The error-handling stage returns the handler's result
unchanged: a successful response passes through and a thrown value is
re-thrown to the caller (its own comment says the error is "handled by
errorResponse" at the route layer); consequently `withMiddleware`
propagates a thrown value unchanged as well. -/
theorem withErrorHandling_identity (handler : Handler)
    (requestId traceId spanId : String) (durationMs : Int) (e : JsValue) :
    withErrorHandling handler = handler () ∧
    (handler () = Except.error e →
      withMiddleware requestId traceId spanId durationMs handler = Except.error e) := by
  constructor
  · unfold withErrorHandling
    cases handler () <;> rfl
  · intro he
    unfold withMiddleware withRequestLogging withErrorHandling
    rw [he]

/-- Witness for C2 (amended): a throwing handler's error value comes
back unchanged from both the error-handling stage and the composed
middleware. -/
theorem withErrorHandling_identity_witness :
    withErrorHandling boomHandler = boomHandler () ∧
    withMiddleware "r" "t" "s" 5 boomHandler =
      Except.error (JsValue.nativeError "Error" "boom" none) := by
  have h := withErrorHandling_identity boomHandler "r" "t" "s" 5
    (JsValue.nativeError "Error" "boom" none)
  exact ⟨h.1, h.2 rfl⟩

/-- Counterexample for C2 as stated: for the throwing handler
`boomHandler`, `withErrorHandling` does not return any response — it
propagates the exception (`isOk = false`), with the thrown value
unchanged, rather than converting it via the Error Normalizer. -/
theorem withErrorHandling_propagates_counterexample :
    (withErrorHandling boomHandler).isOk = false ∧
    withErrorHandling boomHandler =
      Except.error (JsValue.nativeError "Error" "boom" none) :=
  ⟨rfl, rfl⟩

/-- C8 (confirmed).  Normalization returns an `AppError` unchanged
(hence preserves its `statusCode`/`type`), is idempotent, classifies a
native error by its message alone (same message, same class ⇒ same
type, status, message and operational flag regardless of `name` or
captured stack), and maps `"ECONNREFUSED database"` to
`DATABASE_ERROR` with HTTP 500. -/
theorem createAppErrorFromNative_idempotent (e : AppError) (v : JsValue)
    (name name2 msg : String) (stack stack2 : Option String) :
    createAppErrorFromNative (JsValue.appErr e) = e ∧
    (createAppErrorFromNative (JsValue.appErr e)).statusCode = e.statusCode ∧
    (createAppErrorFromNative (JsValue.appErr e)).errType = e.errType ∧
    createAppErrorFromNative (JsValue.appErr (createAppErrorFromNative v)) =
      createAppErrorFromNative v ∧
    ((createAppErrorFromNative (JsValue.nativeError name msg stack)).errType =
        (createAppErrorFromNative (JsValue.nativeError name2 msg stack2)).errType ∧
      (createAppErrorFromNative (JsValue.nativeError name msg stack)).statusCode =
        (createAppErrorFromNative (JsValue.nativeError name2 msg stack2)).statusCode ∧
      (createAppErrorFromNative (JsValue.nativeError name msg stack)).message =
        (createAppErrorFromNative (JsValue.nativeError name2 msg stack2)).message ∧
      (createAppErrorFromNative (JsValue.nativeError name msg stack)).isOperational =
        (createAppErrorFromNative (JsValue.nativeError name2 msg stack2)).isOperational) ∧
    (createAppErrorFromNative (JsValue.nativeError "Error" "ECONNREFUSED database" none)).errType =
      ErrorType.DATABASE_ERROR ∧
    (createAppErrorFromNative
        (JsValue.nativeError "Error" "ECONNREFUSED database" none)).statusCode = 500 := by
  refine ⟨rfl, rfl, rfl, rfl, ?_, by decide, by decide⟩
  simp only [createAppErrorFromNative]
  split_ifs <;> exact ⟨rfl, rfl, rfl, rfl⟩

/-- C7 (corrected: the rate-limit rejection body always carries
`details`).  Bodies produced by `createErrorResponse` have shape
`{success := false, error := {type, message}}`, and in production
configuration `details` and `stack` are always absent, while in
non-production `details` is exactly the normalized error's `details`.
The 429 body built by `withRateLimit`, however, is constructed without
consulting the environment and always carries
`details = {limit, resetAt, retryAfter}`. -/
theorem error_response_details_policy (err : JsValue) (isProd : Bool)
    (st : RateLimitStatus) (now : Int) :
    (createErrorResponse true err).success = false ∧
    (createErrorResponse true err).details = none ∧
    (createErrorResponse true err).stack = none ∧
    (createErrorResponse isProd err).success = false ∧
    (createErrorResponse false err).details = (createAppErrorFromNative err).details ∧
    (rateLimitRejectionResponse st now).body =
      Body.error ⟨false, ErrorType.RATE_LIMIT_ERROR, rateLimitMessage,
        some (.rateLimitInfo st.limit st.resetAt (ceilDivInt (st.resetAt - now) 1000)),
        none⟩ := by
  refine ⟨rfl, rfl, rfl, ?_, ?_, rfl⟩
  · cases isProd <;> rfl
  · cases err <;> rfl

/-- Counterexample for C7 as stated: the rejection response returned by
`withRateLimit` (stored count 1 at its limit 1, call at 4000) has a
body whose `error.details` is present — `{limit, resetAt, retryAfter}`
— even though no branch of this code consults the production flag, so
in production configuration the body still contains `details`. -/
theorem rate_limit_rejection_details_in_production :
    (withRateLimit true envOk store11 reqIp respOk cfg1 4000).1.status = 429 ∧
    (withRateLimit true envOk store11 reqIp respOk cfg1 4000).1.body =
      Body.error ⟨false, ErrorType.RATE_LIMIT_ERROR, rateLimitMessage,
        some (.rateLimitInfo 1 61000 57), none⟩ := by decide

/-- C10 (corrected: an empty User-Agent also maps to
`ua-unknown`).  When none of `CF-Connecting-IP`, `X-Forwarded-For` and
`X-Real-IP` is present: a non-empty User-Agent `s` yields the
identifier `"ua-" ++ s.substring(0, 50)`; a missing — or empty, since
`ua || 'unknown'` treats `""` as falsy — User-Agent yields
`"ua-unknown"`; and two such requests agreeing on the first 50
User-Agent characters share the same rate-limit key for every policy
key prefix. -/
theorem getClientIdentifier_ua_fallback (r r2 : NextRequest) (s s2 : String)
    (hcf : r.cfConnectingIp = none) (hxff : r.xForwardedFor = none)
    (hxri : r.xRealIp = none) :
    (r.userAgent = some s → s ≠ "" → getClientIdentifier r = "ua-" ++ substrTo s 50) ∧
    (r.userAgent = none → getClientIdentifier r = "ua-unknown") ∧
    (r.userAgent = some "" → getClientIdentifier r = "ua-unknown") ∧
    (r2.cfConnectingIp = none → r2.xForwardedFor = none → r2.xRealIp = none →
      r.userAgent = some s → s ≠ "" → r2.userAgent = some s2 → s2 ≠ "" →
      substrTo s 50 = substrTo s2 50 →
      ∀ config : RateLimitConfig,
        rateLimitKey config (getClientIdentifier r) =
          rateLimitKey config (getClientIdentifier r2)) := by
  have hua : ∀ (rr : NextRequest) (ss : String), rr.cfConnectingIp = none →
      rr.xForwardedFor = none → rr.xRealIp = none → rr.userAgent = some ss → ss ≠ "" →
      getClientIdentifier rr = "ua-" ++ substrTo ss 50 := by
    intro rr ss h1 h2 h3 h4 h5
    simp [getClientIdentifier, jsTruthy, h1, h2, h3, h4, h5]
  refine ⟨fun h4 h5 => hua r s hcf hxff hxri h4 h5, ?_, ?_, ?_⟩
  · intro h4
    simp [getClientIdentifier, jsTruthy, hcf, hxff, hxri, h4]
    rfl
  · intro h4
    simp [getClientIdentifier, jsTruthy, hcf, hxff, hxri, h4]
    rfl
  · intro h1 h2 h3 h4 h5 h6 h7 h8 config
    rw [hua r s hcf hxff hxri h4 h5, hua r2 s2 h1 h2 h3 h6 h7, h8]

/-- Witness for C10 (amended): a lone `Mozilla/5.0` User-Agent yields
`ua-Mozilla/5.0`, a header-less request yields `ua-unknown`, and two
requests sharing that User-Agent share the rate-limit key. -/
theorem getClientIdentifier_ua_fallback_witness :
    getClientIdentifier ⟨"/", none, none, none, some "Mozilla/5.0"⟩ =
      "ua-" ++ substrTo "Mozilla/5.0" 50 ∧
    getClientIdentifier ⟨"/", none, none, none, none⟩ = "ua-unknown" ∧
    rateLimitKey cfg3 (getClientIdentifier ⟨"/", none, none, none, some "Mozilla/5.0"⟩) =
      rateLimitKey cfg3 (getClientIdentifier ⟨"/a", none, none, none, some "Mozilla/5.0"⟩) := by
  have h1 := getClientIdentifier_ua_fallback ⟨"/", none, none, none, some "Mozilla/5.0"⟩
    ⟨"/a", none, none, none, some "Mozilla/5.0"⟩ "Mozilla/5.0" "Mozilla/5.0" rfl rfl rfl
  have h2 := getClientIdentifier_ua_fallback ⟨"/", none, none, none, none⟩
    ⟨"/a", none, none, none, some "Mozilla/5.0"⟩ "x" "Mozilla/5.0" rfl rfl rfl
  exact ⟨h1.1 rfl (by decide), h2.2.1 rfl,
    h1.2.2.2 rfl rfl rfl rfl (by decide) rfl (by decide) rfl cfg3⟩

/-- Counterexample for C10 as stated: a request whose User-Agent header
is present but empty is mapped to `ua-unknown`, not to
`"ua-" ++ ""` (`"ua-"`) as the claimed formula predicts. -/
theorem empty_user_agent_counterexample :
    reqEmptyUa.userAgent = some "" ∧
    getClientIdentifier reqEmptyUa = "ua-unknown" ∧
    getClientIdentifier reqEmptyUa ≠ "ua-" ++ substrTo "" 50 := by decide


end EdgeNext
